import Mathlib

/-!
Shallow embedding of the forecast-aggregation core of the
Advanced Weather Forecast Dashboard (src/App.py, src/new.py, src/update.py).

Conventions of the embedding:
* timestamps are `Int` epoch seconds; temperatures are `ℚ` (only ordering and
  equality of temperatures matter to the program);
* Python's naive `datetime.fromtimestamp(ts)` (used for the daily grouping key
  and the noon-distance hour) is modelled with the server clock at UTC, i.e.
  the calendar fields are derived from the raw timestamp with no offset added,
  exactly as the spec describes the grouping key;
* `datetime.fromtimestamp(ts, timezone.utc)` is the same calendar conversion.
-/

/-- Weekday abbreviation table for strftime "%a"; epoch day 0 (1970-01-01) was
a Thursday, so index 0 is "Thu". -/
def wdName : Nat → String
  | 0 => "Thu"
  | 1 => "Fri"
  | 2 => "Sat"
  | 3 => "Sun"
  | 4 => "Mon"
  | 5 => "Tue"
  | _ => "Wed"

/-- strftime "%a" of an epoch timestamp: weekday abbreviation of the calendar
day containing `ts` (floor division, so negative timestamps work too). -/
def dayAbbrev (ts : Int) : String := wdName ((ts.ediv 86400).emod 7).toNat

/-- Hour-of-day (0..23) of an epoch timestamp, as `datetime.hour` yields it. -/
def hourOfDay (ts : Int) : Nat := (ts.emod 86400).toNat / 3600

/-- 12-hour clock value of an hour-of-day, as strftime "%I" yields it
(0 becomes 12, 13 becomes 1, 12 stays 12). -/
def hour12 (h : Nat) : Nat := if h % 12 = 0 then 12 else h % 12

/-- strftime "%p": "AM" for hours 0..11, "PM" for 12..23. -/
def ampm (h : Nat) : String := if h < 12 then "AM" else "PM"

/-- Two-digit zero padding, as Python's "%02d" / strftime zero padding. -/
def pad2 (n : Nat) : String := if n < 10 then "0" ++ Nat.repr n else Nat.repr n

/-- Python's `str.lstrip('0')`: drop every leading '0' character. -/
def lstrip0 (s : String) : String := String.mk (s.data.dropWhile (fun c => c == '0'))

/-- Hourly chart label. src/update.py line 340 computes
`datetime.fromtimestamp(dt + offset, utc).strftime("%a %I %p").lstrip('0')`
(`includeDay = true`); src/App.py line 235 and src/new.py line 292 compute
`...strftime("%I %p").lstrip('0')` (`includeDay = false`). -/
def toLocalHourLabel (ts offsetSeconds : Int) (includeDay : Bool) : String :=
  let lt := ts + offsetSeconds
  let h := hourOfDay lt
  let core := pad2 (hour12 h) ++ " " ++ ampm h
  lstrip0 (if includeDay then dayAbbrev lt ++ " " ++ core else core)

/-- UTC-offset display string, src/update.py lines 455-458 (identically
src/App.py 335-338, src/new.py 402-405): the sign comes from
`offset_hours >= 0`, the hour count is `abs(int(offset / 3600))` (truncation
toward zero), and the minute count is `int((offset % 3600) / 60)` with
Python's floor-style `%`. -/
def formatUtcOffset (offsetSeconds : Int) : String :=
  let sign := if 0 ≤ offsetSeconds then "+" else "-"
  let hh := offsetSeconds.natAbs / 3600
  let mm := (offsetSeconds.emod 3600).toNat / 60
  "UTC" ++ sign ++ pad2 hh ++ ":" ++ pad2 mm

/-- One step of Python's `str.title()`: an alphabetic character is uppercased
when the previous character was not alphabetic, lowercased otherwise. -/
def titleStep (acc : List Char × Bool) (c : Char) : List Char × Bool :=
  let mapped := if c.isAlpha then (if acc.2 then c.toLower else c.toUpper) else c
  (acc.1 ++ [mapped], c.isAlpha)

/-- Python's `str.title()`, applied by every variant to the forecast
description. -/
def pythonTitle (s : String) : String :=
  String.mk (s.data.foldl titleStep ([], false)).1

/-- One upstream 3-hour forecast sample (`item` of `forecast['list']`). -/
structure ForecastSample where
  dt : Int
  temp : ℚ
  icon : String
  description : String
deriving DecidableEq

/-- Daily grouping key of a sample: src/App.py line 279, src/new.py line 341,
src/update.py line 389 all compute `datetime.fromtimestamp(item["dt"]).strftime("%a")`
on the raw timestamp, with no timezone offset added. -/
def dayKey (s : ForecastSample) : String := dayAbbrev s.dt

/-- One point of the hourly chart: label, temperature, title-cased
description, icon code. -/
structure HourlyPoint where
  label : String
  temp : ℚ
  condition : String
  icon : String
deriving DecidableEq

/-- Mapping of one forecast sample to an hourly point (the loop bodies at
src/update.py 336-345 and src/App.py 233-239 / src/new.py 290-296). -/
def mkHourly (includeDay : Bool) (offsetSeconds : Int) (s : ForecastSample) : HourlyPoint :=
  { label := toLocalHourLabel s.dt offsetSeconds includeDay
    temp := s.temp
    condition := pythonTitle s.description
    icon := s.icon }

/-- Hourly slice of src/update.py lines 330-345: `num_chunks = windowHours // 3`
samples are taken from the front of the list and labelled with the weekday. -/
def sliceHourly (samples : List ForecastSample) (offsetSeconds : Int) (windowHours : Nat) :
    List HourlyPoint :=
  (samples.take (windowHours / 3)).map (mkHourly true offsetSeconds)

/-- Hourly slice of src/App.py lines 233-239: fixed `[:8]` window, no weekday
in the label. -/
def sliceHourlyApp (samples : List ForecastSample) (offsetSeconds : Int) : List HourlyPoint :=
  (samples.take 8).map (mkHourly false offsetSeconds)

/-- Hourly slice of src/new.py lines 290-296, textually identical to the
App.py loop. -/
def sliceHourlyNew (samples : List ForecastSample) (offsetSeconds : Int) : List HourlyPoint :=
  (samples.take 8).map (mkHourly false offsetSeconds)

/-- Membership test of a key in the insertion-ordered dictionary
(`day_name not in daily_data`). -/
def containsKey {α : Type} (g : List (String × α)) (k : String) : Bool :=
  g.any (fun p => p.1 == k)

/-- In-place update of the entry of `k` in the insertion-ordered dictionary
(`daily_data[day_name] = ...` on an existing key). -/
def assocUpdate {α : Type} (g : List (String × α)) (k : String) (f : α → α) :
    List (String × α) :=
  match g with
  | [] => []
  | p :: rest => if p.1 == k then (p.1, f p.2) :: rest else p :: assocUpdate rest k f

/-- One iteration of the daily-aggregation loop, generic in the per-day
aggregate: a missing key is inserted at the end with `ini s` (Python dicts
preserve insertion order), then the entry of the day is updated with `upd`. -/
def stepGroups {α : Type} (ini : ForecastSample → α) (upd : α → ForecastSample → α)
    (g : List (String × α)) (s : ForecastSample) : List (String × α) :=
  let day := dayKey s
  let g1 := if containsKey g day then g else g ++ [(day, ini s)]
  assocUpdate g1 day (fun a => upd a s)

/-- The `daily_data` dictionary after the whole loop over `forecast['list']`. -/
def buildGroups {α : Type} (ini : ForecastSample → α) (upd : α → ForecastSample → α)
    (samples : List ForecastSample) : List (String × α) :=
  samples.foldl (stepGroups ini upd) []

/-- Per-day aggregate of src/update.py lines 394-402: temperature list,
current representative icon, and the running best noon distance. -/
structure DayAgg where
  temps : List ℚ
  icon : String
  noonDiff : Nat
deriving DecidableEq

/-- Distance `abs(12 - hour)` of a sample from local noon, the hour taken from
the unadjusted timestamp (src/update.py lines 391 and 399). -/
def noonDist (s : ForecastSample) : Nat := ((12 : Int) - (hourOfDay s.dt : Int)).natAbs

/-- Dictionary-entry creation of src/update.py line 395:
`{'temps': [], 'icon': icon, 'noon_diff': 24}`. -/
def aggInit (s : ForecastSample) : DayAgg := ⟨[], s.icon, 24⟩

/-- Body of the aggregation loop of src/update.py lines 397-402: append the
temperature, then replace the icon exactly when the sample's noon distance is
strictly smaller than the running best. -/
def aggStep (a : DayAgg) (s : ForecastSample) : DayAgg :=
  let a1 : DayAgg := { a with temps := a.temps ++ [s.temp] }
  if noonDist s < a1.noonDiff then { a1 with icon := s.icon, noonDiff := noonDist s } else a1

/-- Per-day aggregate of src/App.py lines 283-286 and src/new.py lines 345-348:
only the temperature list; the icon is frozen at group creation. -/
structure DayAggA where
  temps : List ℚ
  icon : String
deriving DecidableEq

/-- Dictionary-entry creation of src/App.py line 284: `{'temps': [], 'icon': icon}`. -/
def aggInitApp (s : ForecastSample) : DayAggA := ⟨[], s.icon⟩

/-- Loop body of src/App.py line 286: only `temps.append(temp)`. -/
def aggStepApp (a : DayAggA) (s : ForecastSample) : DayAggA :=
  { a with temps := a.temps ++ [s.temp] }

/-- One entry of the 5-day chart: day label, max temp, min temp, icon. -/
structure DailySummary where
  day : String
  tmax : ℚ
  tmin : ℚ
  icon : String
deriving DecidableEq

/-- `np.max` over the collected day temperatures (the list is never empty in
the program; an empty list yields a dummy 0). -/
def listMax : List ℚ → ℚ
  | [] => 0
  | t :: ts => ts.foldl max t

/-- `np.min` over the collected day temperatures. -/
def listMin : List ℚ → ℚ
  | [] => 0
  | t :: ts => ts.foldl min t

/-- Daily summary of src/update.py lines 387-408: build the dictionary, keep
the first 5 entries in insertion order, emit (day, max, min, icon). -/
def summarizeDaily (samples : List ForecastSample) : List DailySummary :=
  ((buildGroups aggInit aggStep samples).take 5).map
    (fun p => ⟨p.1, listMax p.2.temps, listMin p.2.temps, p.2.icon⟩)

/-- Daily summary of src/App.py lines 277-293. -/
def summarizeDailyApp (samples : List ForecastSample) : List DailySummary :=
  ((buildGroups aggInitApp aggStepApp samples).take 5).map
    (fun p => ⟨p.1, listMax p.2.temps, listMin p.2.temps, p.2.icon⟩)

/-- Daily summary of src/new.py lines 339-354, textually identical to App.py. -/
def summarizeDailyNew (samples : List ForecastSample) : List DailySummary :=
  ((buildGroups aggInitApp aggStepApp samples).take 5).map
    (fun p => ⟨p.1, listMax p.2.temps, listMin p.2.temps, p.2.icon⟩)

/-- The label lookup table `aqi_map` shared by all three variants. -/
def aqiMap (v : Int) : Option String :=
  if v = 1 then some "Good" else if v = 2 then some "Fair"
  else if v = 3 then some "Moderate" else if v = 4 then some "Poor"
  else if v = 5 then some "Very Poor" else none

/-- The colour table `aqi_color_map` of src/update.py line 117 and
src/new.py line 122. -/
def aqiColorMap (v : Int) : Option String :=
  if v = 1 then some "#00aa00" else if v = 2 then some "#aaaa00"
  else if v = 3 then some "#cc5500" else if v = 4 then some "#cc0000"
  else if v = 5 then some "#77004c" else none

/-- The colour table `aqi_color_map` of src/App.py line 80. -/
def aqiColorMapApp (v : Int) : Option String :=
  if v = 1 then some "#00e400" else if v = 2 then some "#ffff00"
  else if v = 3 then some "#ff7e00" else if v = 4 then some "#ff0000"
  else if v = 5 then some "#99004c" else none

/-- `get_aqi_category` of src/update.py lines 115-120 (identically new.py):
dictionary `.get` with defaults "Unknown" and "#333333"; a missing value
(`None` key) also falls to the defaults. -/
def get_aqi_category (aqi : Option Int) : String × String :=
  match aqi with
  | none => ("Unknown", "#333333")
  | some v => ((aqiMap v).getD "Unknown", (aqiColorMap v).getD "#333333")

/-- `get_aqi_category` of src/App.py lines 78-83, whose neutral colour is
"white". -/
def get_aqi_category_app (aqi : Option Int) : String × String :=
  match aqi with
  | none => ("Unknown", "white")
  | some v => ((aqiMap v).getD "Unknown", (aqiColorMapApp v).getD "white")

/-- Key accumulator of the functional description of the grouping: a new key
is appended at the end, a known key leaves the list unchanged. -/
def addKey (acc : List String) (k : String) : List String :=
  if k ∈ acc then acc else acc ++ [k]

/-- First-seen deduplication of a key list (the insertion order of a Python
dictionary built by the loop). -/
def dedupKeys (l : List String) : List String := l.foldl addKey []

/-- Day keys of a sample list, in first-appearance order. -/
def dayKeys (samples : List ForecastSample) : List String :=
  dedupKeys (samples.map dayKey)

/-- The samples of one day group, in input order. -/
def membersOf (samples : List ForecastSample) (k : String) : List ForecastSample :=
  samples.filter (fun s => dayKey s == k)

/-- Functional value of one day group: fold the loop body over the group's
members, starting from the entry created for the first member. The default is
returned only for an empty group, which never arises for an emitted key. -/
def groupVal {α : Type} (ini : ForecastSample → α) (upd : α → ForecastSample → α)
    (dflt : α) : List ForecastSample → α
  | [] => dflt
  | s :: rest => (s :: rest).foldl upd (ini s)

/-- Earliest sample of a list minimising the noon distance (ties keep the
earlier sample); this is the representative-icon policy the spec states. -/
def closestToNoon : List ForecastSample → Option ForecastSample
  | [] => none
  | s :: rest =>
    match closestToNoon rest with
    | none => some s
    | some m => if noonDist s ≤ noonDist m then some s else some m

/-- Projection of the icon-selection state of `aggStep` to (icon, best noon
distance); used to relate the loop to `closestToNoon`. -/
def pstep (p : String × Nat) (s : ForecastSample) : String × Nat :=
  if noonDist s < p.2 then (s.icon, noonDist s) else p

/-- The end-to-end scenario of the spec: 8 samples at 3-hour spacing starting
at local hour 00:00 with offset 0 and temperatures 20,19,18,17,18,21,24,23. -/
def scenarioSamples : List ForecastSample :=
  [⟨0, 20, "01d", "clear"⟩, ⟨10800, 19, "01d", "clear"⟩, ⟨21600, 18, "02d", "clouds"⟩,
   ⟨32400, 17, "02d", "clouds"⟩, ⟨43200, 18, "03d", "rain"⟩, ⟨54000, 21, "03d", "rain"⟩,
   ⟨64800, 24, "04d", "clouds"⟩, ⟨75600, 23, "01d", "clear"⟩]

theorem mem_foldl_addKey (l : List String) : ∀ (acc : List String) (x : String),
    x ∈ l.foldl addKey acc ↔ x ∈ acc ∨ x ∈ l := by
  induction l with
  | nil => intro acc x; simp
  | cons k tl ih =>
    intro acc x
    rw [List.foldl_cons, ih]
    unfold addKey
    by_cases hk : k ∈ acc
    · rw [if_pos hk]
      simp only [List.mem_cons]
      constructor
      · rintro (h | h)
        · exact Or.inl h
        · exact Or.inr (Or.inr h)
      · rintro (h | rfl | h)
        · exact Or.inl h
        · exact Or.inl hk
        · exact Or.inr h
    · rw [if_neg hk]
      simp only [List.mem_append, List.mem_singleton, List.mem_cons]
      tauto

theorem nodup_foldl_addKey (l : List String) : ∀ acc : List String,
    acc.Nodup → (l.foldl addKey acc).Nodup := by
  induction l with
  | nil => intro acc h; simpa using h
  | cons k tl ih =>
    intro acc h
    rw [List.foldl_cons]
    refine ih _ ?_
    unfold addKey
    by_cases hk : k ∈ acc
    · rwa [if_pos hk]
    · rw [if_neg hk]
      rw [List.nodup_append]
      refine ⟨h, List.nodup_singleton k, ?_⟩
      intro a ha hb
      rw [List.mem_singleton] at hb
      subst hb
      exact hk ha

theorem dedupKeys_append (l : List String) (k : String) :
    dedupKeys (l ++ [k]) = addKey (dedupKeys l) k := by
  simp [dedupKeys, List.foldl_append]

theorem mem_dedupKeys (l : List String) (x : String) : x ∈ dedupKeys l ↔ x ∈ l := by
  rw [dedupKeys, mem_foldl_addKey]
  simp

theorem nodup_dedupKeys (l : List String) : (dedupKeys l).Nodup :=
  nodup_foldl_addKey l [] List.nodup_nil

theorem dayKeys_append (l : List ForecastSample) (s : ForecastSample) :
    dayKeys (l ++ [s]) = addKey (dayKeys l) (dayKey s) := by
  rw [dayKeys, List.map_append, List.map_singleton, dedupKeys_append]
  rfl

theorem mem_dayKeys (l : List ForecastSample) (x : String) :
    x ∈ dayKeys l ↔ x ∈ l.map dayKey := by
  rw [dayKeys, mem_dedupKeys]

theorem nodup_dayKeys (l : List ForecastSample) : (dayKeys l).Nodup :=
  nodup_dedupKeys _

theorem containsKey_map {α : Type} (K : List String) (f : String → α) (k0 : String) :
    containsKey (K.map (fun k => (k, f k))) k0 = true ↔ k0 ∈ K := by
  rw [containsKey, List.any_eq_true]
  constructor
  · rintro ⟨p, hp, hbeq⟩
    obtain ⟨k, hk, rfl⟩ := List.mem_map.mp hp
    have hk0 : k = k0 := by simpa using hbeq
    exact hk0 ▸ hk
  · intro h
    exact ⟨(k0, f k0), List.mem_map.mpr ⟨k0, h, rfl⟩, by simp⟩

theorem assocUpdate_append_right {α : Type} (g : List (String × α)) (k : String)
    (v : α) (f : α → α) (h : ∀ p ∈ g, p.1 ≠ k) :
    assocUpdate (g ++ [(k, v)]) k f = g ++ [(k, f v)] := by
  induction g with
  | nil => simp [assocUpdate]
  | cons p tl ih =>
    have hp : p.1 ≠ k := h p (List.mem_cons_self p tl)
    rw [List.cons_append, List.cons_append]
    unfold assocUpdate
    rw [if_neg (by simpa using hp)]
    rw [ih (fun q hq => h q (List.mem_cons_of_mem p hq))]

theorem assocUpdate_map {α : Type} (K : List String) (F : String → α) (k0 : String)
    (f : α → α) (hnd : K.Nodup) (hmem : k0 ∈ K) :
    assocUpdate (K.map (fun k => (k, F k))) k0 f
      = K.map (fun k => (k, if k = k0 then f (F k0) else F k)) := by
  induction K with
  | nil => cases hmem
  | cons k tl ih =>
    obtain ⟨hk, hnd'⟩ := List.nodup_cons.mp hnd
    by_cases hkk : k = k0
    · subst hkk
      rw [List.map_cons, List.map_cons]
      unfold assocUpdate
      rw [if_pos (by simp)]
      rw [if_pos rfl]
      congr 1
      refine (List.map_congr_left ?_)
      intro k' hk'
      rw [if_neg (by rintro rfl; exact hk hk')]
    · have hmem' : k0 ∈ tl := by
        rcases List.mem_cons.mp hmem with h | h
        · exact absurd h.symm hkk
        · exact h
      rw [List.map_cons, List.map_cons]
      unfold assocUpdate
      rw [if_neg (by simpa using hkk)]
      rw [ih hnd' hmem']
      rw [if_neg hkk]

theorem membersOf_append (l : List ForecastSample) (s : ForecastSample) (k : String) :
    membersOf (l ++ [s]) k
      = membersOf l k ++ (if dayKey s = k then [s] else []) := by
  rw [membersOf, membersOf, List.filter_append]
  congr 1
  by_cases h : dayKey s = k
  · simp [h]
  · simp [h]

theorem membersOf_eq_nil {l : List ForecastSample} {k : String}
    (h : k ∉ dayKeys l) : membersOf l k = [] := by
  rw [mem_dayKeys] at h
  rw [membersOf, List.filter_eq_nil_iff]
  intro s hs hks
  exact h (List.mem_map.mpr ⟨s, hs, by simpa using hks⟩)

theorem membersOf_ne_nil {l : List ForecastSample} {k : String}
    (h : k ∈ dayKeys l) : membersOf l k ≠ [] := by
  rw [mem_dayKeys] at h
  obtain ⟨s, hs, hks⟩ := List.mem_map.mp h
  have : s ∈ membersOf l k := by
    rw [membersOf, List.mem_filter]
    exact ⟨hs, by simpa using hks⟩
  exact List.ne_nil_of_mem this

theorem groupVal_singleton {α : Type} (ini : ForecastSample → α)
    (upd : α → ForecastSample → α) (dflt : α) (s : ForecastSample) :
    groupVal ini upd dflt [s] = upd (ini s) s := rfl

theorem groupVal_append {α : Type} (ini : ForecastSample → α)
    (upd : α → ForecastSample → α) (dflt : α) (l : List ForecastSample)
    (s : ForecastSample) (h : l ≠ []) :
    groupVal ini upd dflt (l ++ [s]) = upd (groupVal ini upd dflt l) s := by
  cases l with
  | nil => cases h rfl
  | cons a tl => simp [groupVal, List.foldl_append]

theorem buildGroups_char {α : Type} (ini : ForecastSample → α)
    (upd : α → ForecastSample → α) (dflt : α) (samples : List ForecastSample) :
    buildGroups ini upd samples
      = (dayKeys samples).map
          (fun k => (k, groupVal ini upd dflt (membersOf samples k))) := by
  induction samples using List.reverseRecOn with
  | nil => rfl
  | append_singleton l s ih =>
    have hstep : buildGroups ini upd (l ++ [s])
        = stepGroups ini upd (buildGroups ini upd l) s := by
      simp [buildGroups, List.foldl_append]
    rw [hstep, ih]
    simp only [stepGroups]
    by_cases hmem : dayKey s ∈ dayKeys l
    · rw [if_pos ((containsKey_map _ _ _).mpr hmem)]
      rw [assocUpdate_map _ _ _ _ (nodup_dayKeys l) hmem]
      rw [dayKeys_append, addKey, if_pos hmem]
      apply List.map_congr_left
      intro k hk
      by_cases hkk : k = dayKey s
      · subst hkk
        rw [if_pos rfl, membersOf_append, if_pos rfl]
        rw [groupVal_append _ _ _ _ _ (membersOf_ne_nil hmem)]
      · rw [if_neg hkk, membersOf_append, if_neg (fun h => hkk h.symm), List.append_nil]
    · rw [if_neg (by
        intro hc
        exact hmem ((containsKey_map _ _ _).mp hc))]
      rw [assocUpdate_append_right _ _ _ _ (by
        intro p hp
        obtain ⟨k, hk, rfl⟩ := List.mem_map.mp hp
        intro hc
        exact hmem (hc ▸ hk))]
      rw [dayKeys_append, addKey, if_neg hmem, List.map_append, List.map_singleton]
      congr 1
      · apply List.map_congr_left
        intro k hk
        rw [membersOf_append, if_neg (fun h => hmem (by rw [h]; exact hk)), List.append_nil]
      · rw [membersOf_append, membersOf_eq_nil hmem, if_pos rfl, List.nil_append]
        rfl

theorem summarizeDaily_char (samples : List ForecastSample) :
    summarizeDaily samples
      = ((dayKeys samples).take 5).map
          (fun k =>
            let g := groupVal aggInit aggStep ⟨[], "", 24⟩ (membersOf samples k)
            ⟨k, listMax g.temps, listMin g.temps, g.icon⟩) := by
  rw [summarizeDaily, buildGroups_char aggInit aggStep ⟨[], "", 24⟩]
  rw [← List.map_take, List.map_map]
  rfl

theorem summarizeDailyApp_char (samples : List ForecastSample) :
    summarizeDailyApp samples
      = ((dayKeys samples).take 5).map
          (fun k =>
            let g := groupVal aggInitApp aggStepApp ⟨[], ""⟩ (membersOf samples k)
            ⟨k, listMax g.temps, listMin g.temps, g.icon⟩) := by
  rw [summarizeDailyApp, buildGroups_char aggInitApp aggStepApp ⟨[], ""⟩]
  rw [← List.map_take, List.map_map]
  rfl

theorem foldl_aggStep_temps (l : List ForecastSample) : ∀ a : DayAgg,
    (l.foldl aggStep a).temps = a.temps ++ l.map (fun s => s.temp) := by
  induction l with
  | nil => intro a; simp
  | cons s tl ih =>
    intro a
    rw [List.foldl_cons, ih]
    have hstep : (aggStep a s).temps = a.temps ++ [s.temp] := by
      rw [aggStep]
      split <;> rfl
    rw [hstep, List.map_cons, List.append_assoc]
    rfl

theorem foldl_aggStepApp_temps (l : List ForecastSample) : ∀ a : DayAggA,
    (l.foldl aggStepApp a).temps = a.temps ++ l.map (fun s => s.temp) := by
  induction l with
  | nil => intro a; simp
  | cons s tl ih =>
    intro a
    rw [List.foldl_cons, ih]
    rw [aggStepApp, List.map_cons, List.append_assoc]
    rfl

theorem groupVal_temps {l : List ForecastSample} (h : l ≠ []) (dflt : DayAgg) :
    (groupVal aggInit aggStep dflt l).temps = l.map (fun s => s.temp) := by
  cases l with
  | nil => cases h rfl
  | cons s tl =>
    rw [groupVal, foldl_aggStep_temps]
    rfl

theorem groupValApp_temps {l : List ForecastSample} (h : l ≠ []) (dflt : DayAggA) :
    (groupVal aggInitApp aggStepApp dflt l).temps = l.map (fun s => s.temp) := by
  cases l with
  | nil => cases h rfl
  | cons s tl =>
    rw [groupVal, foldl_aggStepApp_temps]
    rfl

theorem hourOfDay_lt (ts : Int) : hourOfDay ts < 24 := by
  have h1 : 0 ≤ ts.emod 86400 := Int.emod_nonneg ts (by norm_num)
  have h2 : ts.emod 86400 < 86400 := Int.emod_lt_of_pos ts (by norm_num)
  rw [hourOfDay]
  omega

theorem noonDist_le (s : ForecastSample) : noonDist s ≤ 12 := by
  have h := hourOfDay_lt s.dt
  rw [noonDist]
  omega

theorem foldl_aggStep_pair (l : List ForecastSample) : ∀ a : DayAgg,
    ((l.foldl aggStep a).icon, (l.foldl aggStep a).noonDiff)
      = l.foldl pstep (a.icon, a.noonDiff) := by
  induction l with
  | nil => intro a; rfl
  | cons s tl ih =>
    intro a
    rw [List.foldl_cons, List.foldl_cons, ih]
    have hstep : ((aggStep a s).icon, (aggStep a s).noonDiff)
        = pstep (a.icon, a.noonDiff) s := by
      rw [aggStep, pstep]
      split <;> rfl
    rw [hstep]

theorem closestToNoon_cons (s : ForecastSample) (tl : List ForecastSample) :
    ∃ m, closestToNoon (s :: tl) = some m ∧ noonDist m ≤ noonDist s := by
  cases h : closestToNoon tl with
  | none => exact ⟨s, by rw [closestToNoon, h], le_refl _⟩
  | some m =>
    by_cases hd : noonDist s ≤ noonDist m
    · exact ⟨s, by rw [closestToNoon, h]; simp [hd], le_refl _⟩
    · exact ⟨m, by rw [closestToNoon, h]; simp [hd], by omega⟩

theorem foldl_pstep_char (l : List ForecastSample) : ∀ (ic : String) (d : Nat),
    l.foldl pstep (ic, d)
      = match closestToNoon l with
        | none => (ic, d)
        | some m => if noonDist m < d then (m.icon, noonDist m) else (ic, d) := by
  induction l with
  | nil => intros; rfl
  | cons s tl ih =>
    intro ic d
    rw [List.foldl_cons, pstep]
    by_cases h1 : noonDist s < d
    · rw [if_pos h1, ih, closestToNoon]
      cases h : closestToNoon tl with
      | none => simp [h1]
      | some m =>
        dsimp only
        by_cases h2 : noonDist s ≤ noonDist m
        · rw [if_pos h2]
          dsimp only
          by_cases h3 : noonDist m < noonDist s
          · omega
          · rw [if_neg h3]
            simp [h1]
        · rw [if_neg h2]
          dsimp only
          by_cases h3 : noonDist m < noonDist s
          · rw [if_pos h3, if_pos (by omega)]
          · omega
    · rw [if_neg h1, ih, closestToNoon]
      cases h : closestToNoon tl with
      | none => simp [h1]
      | some m =>
        dsimp only
        by_cases h2 : noonDist s ≤ noonDist m
        · rw [if_pos h2]
          dsimp only
          rw [if_neg (by omega), if_neg h1]
        · rw [if_neg h2]

theorem groupVal_icon {l : List ForecastSample} (h : l ≠ []) (dflt : DayAgg) :
    ∃ m, closestToNoon l = some m
      ∧ (groupVal aggInit aggStep dflt l).icon = m.icon := by
  cases l with
  | nil => cases h rfl
  | cons s tl =>
    obtain ⟨m, hm, hle⟩ := closestToNoon_cons s tl
    refine ⟨m, hm, ?_⟩
    have hpair := foldl_aggStep_pair (s :: tl) (aggInit s)
    have hicon : (groupVal aggInit aggStep dflt (s :: tl)).icon
        = ((s :: tl).foldl pstep (s.icon, 24)).1 := by
      rw [groupVal]
      exact congrArg Prod.fst hpair
    rw [hicon, foldl_pstep_char, hm]
    have hlt : noonDist m < 24 := by
      have := noonDist_le s
      omega
    dsimp only
    rw [if_pos hlt]

theorem foldl_min_le (l : List ℚ) : ∀ a : ℚ, l.foldl min a ≤ a := by
  induction l with
  | nil => intro a; simp
  | cons t tl ih =>
    intro a
    rw [List.foldl_cons]
    exact le_trans (ih (min a t)) (min_le_left a t)

theorem le_foldl_max (l : List ℚ) : ∀ a : ℚ, a ≤ l.foldl max a := by
  induction l with
  | nil => intro a; simp
  | cons t tl ih =>
    intro a
    rw [List.foldl_cons]
    exact le_trans (le_max_left a t) (ih (max a t))

theorem listMin_le_listMax {l : List ℚ} (h : l ≠ []) : listMin l ≤ listMax l := by
  cases l with
  | nil => cases h rfl
  | cons t tl =>
    rw [listMin, listMax]
    exact le_trans (foldl_min_le tl t) (le_foldl_max tl t)

theorem summarizeDaily_days (samples : List ForecastSample) :
    (summarizeDaily samples).map (fun e => e.day) = (dayKeys samples).take 5 := by
  rw [summarizeDaily_char, List.map_map]
  conv_rhs => rw [← List.map_id ((dayKeys samples).take 5)]
  apply List.map_congr_left
  intro k hk
  rfl

theorem noonDist_mk (dt : Int) (t : ℚ) (i d : String) :
    noonDist ⟨dt, t, i, d⟩ = ((12 : Int) - (hourOfDay dt : Int)).natAbs := rfl

theorem summarize_proj_update (samples : List ForecastSample) :
    (summarizeDaily samples).map (fun e => (e.day, e.tmin, e.tmax))
      = ((dayKeys samples).take 5).map
          (fun k => (k, listMin ((membersOf samples k).map (fun s => s.temp)),
                        listMax ((membersOf samples k).map (fun s => s.temp)))) := by
  rw [summarizeDaily_char, List.map_map]
  apply List.map_congr_left
  intro k hk
  have hne := membersOf_ne_nil (List.take_subset 5 (dayKeys samples) hk)
  dsimp only [Function.comp]
  rw [groupVal_temps hne]

theorem summarize_proj_app (samples : List ForecastSample) :
    (summarizeDailyApp samples).map (fun e => (e.day, e.tmin, e.tmax))
      = ((dayKeys samples).take 5).map
          (fun k => (k, listMin ((membersOf samples k).map (fun s => s.temp)),
                        listMax ((membersOf samples k).map (fun s => s.temp)))) := by
  rw [summarizeDailyApp_char, List.map_map]
  apply List.map_congr_left
  intro k hk
  have hne := membersOf_ne_nil (List.take_subset 5 (dayKeys samples) hk)
  dsimp only [Function.comp]
  rw [groupValApp_temps hne]

theorem summarizeDaily_map_icon (samples : List ForecastSample) :
    (summarizeDaily samples).map (fun e => e.icon)
      = ((dayKeys samples).take 5).map
          (fun k => (groupVal aggInit aggStep ⟨[], "", 24⟩ (membersOf samples k)).icon) := by
  rw [summarizeDaily_char, List.map_map]
  rfl

/-- C4: in every emitted daily summary the representative icon is the icon of
the earliest group member minimising the noon distance abs(12 - hour) of the
unadjusted timestamp (strictly smaller distances replace, ties keep the
earlier sample); in particular two same-day samples at local hours 9 and 15
yield the hour-9 icon. -/
theorem c4_noon_icon :
    (∀ (samples : List ForecastSample) (e : DailySummary), e ∈ summarizeDaily samples →
      ∃ m, closestToNoon (membersOf samples e.day) = some m ∧ e.icon = m.icon)
    ∧ ∀ (t1 t2 : ℚ) (i1 i2 d1 d2 : String),
      (summarizeDaily [⟨32400, t1, i1, d1⟩, ⟨54000, t2, i2, d2⟩]).map (fun e => e.icon)
        = [i1] := by
  constructor
  · intro samples e he
    rw [summarizeDaily_char] at he
    obtain ⟨k, hk, rfl⟩ := List.mem_map.mp he
    have hk' : k ∈ dayKeys samples := List.take_subset 5 (dayKeys samples) hk
    have hne := membersOf_ne_nil hk'
    obtain ⟨m, hm, hicon⟩ := groupVal_icon hne ⟨[], "", 24⟩
    exact ⟨m, hm, hicon⟩
  · intro t1 t2 i1 i2 d1 d2
    have hne : ([⟨32400, t1, i1, d1⟩, ⟨54000, t2, i2, d2⟩] : List ForecastSample) ≠ [] := by
      simp
    obtain ⟨m, hm, hicon⟩ :=
      groupVal_icon (l := [⟨32400, t1, i1, d1⟩, ⟨54000, t2, i2, d2⟩]) hne ⟨[], "", 24⟩
    have h1 : noonDist (⟨32400, t1, i1, d1⟩ : ForecastSample) = 3 := by
      rw [noonDist_mk]; decide
    have h2 : noonDist (⟨54000, t2, i2, d2⟩ : ForecastSample) = 3 := by
      rw [noonDist_mk]; decide
    have hc : closestToNoon [⟨32400, t1, i1, d1⟩, ⟨54000, t2, i2, d2⟩]
        = some ⟨32400, t1, i1, d1⟩ := by
      simp only [closestToNoon]
      rw [h1, h2]
      simp
    rw [hc] at hm
    injection hm with hm'
    subst hm'
    rw [summarizeDaily_map_icon]
    rw [show dayKeys [⟨32400, t1, i1, d1⟩, ⟨54000, t2, i2, d2⟩] = ["Thu"] from rfl]
    rw [show (["Thu"] : List String).take 5 = ["Thu"] from rfl]
    rw [List.map_singleton]
    rw [show membersOf [⟨32400, t1, i1, d1⟩, ⟨54000, t2, i2, d2⟩] "Thu"
        = [⟨32400, t1, i1, d1⟩, ⟨54000, t2, i2, d2⟩] from rfl]
    rw [hicon]

/-- Witness for C4 at a concrete two-sample day (hours 9 and 15, both at noon
distance 3): the summary keeps the first icon. -/
theorem c4_noon_icon_witness :
    (⟨"Thu", 20, 10, "a"⟩ : DailySummary)
        ∈ summarizeDaily [⟨32400, 10, "a", "x"⟩, ⟨54000, 20, "b", "y"⟩]
    ∧ ∃ m, closestToNoon (membersOf [⟨32400, 10, "a", "x"⟩, ⟨54000, 20, "b", "y"⟩]
          (⟨"Thu", 20, 10, "a"⟩ : DailySummary).day) = some m
        ∧ (⟨"Thu", 20, 10, "a"⟩ : DailySummary).icon = m.icon :=
  ⟨by decide, c4_noon_icon.1 _ _ (by decide)⟩

/-- C5: the hourly labels are computed from timestamp + offset while the
daily grouping keys are the weekday abbreviations of the raw timestamps with
no offset added, for every sample list, offset and window. -/
theorem c5_offset_asymmetry (samples : List ForecastSample) (offsetSeconds : Int) (w : Nat) :
    (sliceHourly samples offsetSeconds w).map (fun p => p.label)
      = (samples.take (w / 3)).map (fun s => toLocalHourLabel (s.dt + offsetSeconds) 0 true)
    ∧ (summarizeDaily samples).map (fun e => e.day)
      = (dedupKeys (samples.map (fun s => dayAbbrev s.dt))).take 5 := by
  constructor
  · rw [sliceHourly, List.map_map]
    apply List.map_congr_left
    intro s hs
    show toLocalHourLabel s.dt offsetSeconds true
        = toLocalHourLabel (s.dt + offsetSeconds) 0 true
    simp only [toLocalHourLabel, add_zero]
  · exact summarizeDaily_days samples

/-- C6: the hourly slice takes the first windowHours / 3 samples, so returns
exactly min(8, length) points for a 24-hour window and min(3, length) for a
9-hour window. -/
theorem c6_window_counts (samples : List ForecastSample) (offsetSeconds : Int) :
    (sliceHourly samples offsetSeconds 24).length = min 8 samples.length
    ∧ (sliceHourly samples offsetSeconds 9).length = min 3 samples.length
    ∧ ∀ w : Nat, (sliceHourly samples offsetSeconds w).length
        = min (w / 3) samples.length := by
  refine ⟨?_, ?_, fun w => ?_⟩ <;> simp [sliceHourly]

/-- C7 (amended): empty input degrades to an empty output for both
operations, and a window below 3 hours gives an empty slice; but a
non-multiple-of-3 window is floor-divided (count = windowHours / 3) rather
than rejected, so e.g. windowHours = 4 still yields one point. -/
theorem c7_degrade (samples : List ForecastSample) (offsetSeconds : Int) (w : Nat) :
    sliceHourly [] offsetSeconds w = []
    ∧ summarizeDaily [] = []
    ∧ (w < 3 → sliceHourly samples offsetSeconds w = [])
    ∧ (sliceHourly samples offsetSeconds w).length = min (w / 3) samples.length := by
  refine ⟨by simp [sliceHourly], rfl, ?_, by simp [sliceHourly]⟩
  intro hw
  have hz : w / 3 = 0 := Nat.div_eq_of_lt hw
  simp [sliceHourly, hz]

/-- Witness for C7's hypothesis-guarded conjunct at window 2. -/
theorem c7_degrade_witness :
    (2 : Nat) < 3 ∧ sliceHourly [⟨0, 20, "01d", "x"⟩] 0 2 = [] :=
  ⟨by decide, (c7_degrade [⟨0, 20, "01d", "x"⟩] 0 2).2.2.1 (by decide)⟩

/-- Counterexample to C7 as stated: the non-multiple-of-3 window 4 yields a
non-empty slice on a non-empty sample list. -/
theorem c7_window_counterexample :
    sliceHourly [⟨0, 20, "01d", "clear sky"⟩] 0 4 ≠ [] := by decide

/-- C8: daily summaries keep first-appearance order of the day keys and are
truncated to the first 5 day groups; later groups are dropped, never
replacing earlier ones. -/
theorem c8_truncation (samples : List ForecastSample) :
    (summarizeDaily samples).length ≤ 5
    ∧ (summarizeDaily samples).map (fun e => e.day) = (dayKeys samples).take 5 := by
  refine ⟨?_, summarizeDaily_days samples⟩
  rw [summarizeDaily_char, List.length_map]
  exact List.length_take_le 5 _

/-- C10: every emitted daily summary satisfies minTemp ≤ maxTemp, both being
computed over the same non-empty group temperature list. -/
theorem c10_min_le_max (samples : List ForecastSample) (e : DailySummary)
    (he : e ∈ summarizeDaily samples) : e.tmin ≤ e.tmax := by
  rw [summarizeDaily_char] at he
  obtain ⟨k, hk, rfl⟩ := List.mem_map.mp he
  have hne := membersOf_ne_nil (List.take_subset 5 (dayKeys samples) hk)
  dsimp only
  rw [groupVal_temps hne]
  refine listMin_le_listMax ?_
  intro hmap
  exact hne (List.map_eq_nil_iff.mp hmap)

/-- Witness for C10 at a one-sample input. -/
theorem c10_min_le_max_witness :
    (⟨"Thu", 10, 10, "a"⟩ : DailySummary) ∈ summarizeDaily [⟨0, 10, "a", "b"⟩]
    ∧ (⟨"Thu", 10, 10, "a"⟩ : DailySummary).tmin
        ≤ (⟨"Thu", 10, 10, "a"⟩ : DailySummary).tmax :=
  ⟨by decide, c10_min_le_max [⟨0, 10, "a", "b"⟩] _ (by decide)⟩

theorem strAppend_assoc (a b c : String) : a ++ b ++ c = a ++ (b ++ c) := by
  rcases a with ⟨da⟩
  rcases b with ⟨db⟩
  rcases c with ⟨dc⟩
  show String.mk (da ++ db ++ dc) = String.mk (da ++ (db ++ dc))
  rw [List.append_assoc]

theorem lstrip0_wdName (k : Nat) (r : String) :
    lstrip0 (wdName k ++ r) = wdName k ++ r := by
  rcases r with ⟨rd⟩
  match k with
  | 0 => rfl
  | 1 => rfl
  | 2 => rfl
  | 3 => rfl
  | 4 => rfl
  | 5 => rfl
  | n + 6 => rfl

theorem lstrip0_day (lt : Int) (r : String) :
    lstrip0 (dayAbbrev lt ++ r) = dayAbbrev lt ++ r := by
  rw [dayAbbrev]
  exact lstrip0_wdName _ r


/-- C2 (amended): with includeDay = true the trailing `lstrip('0')` applies to
the whole label, which starts with the weekday letter, so the hour keeps its
leading zero: the label is weekday ++ " " ++ zero-padded 12-hour time; the
spec's 8-sample scenario therefore yields "Thu 12 AM", "Thu 03 AM", ...,
"Thu 09 PM" in order, with matching temperatures. -/
theorem c2_day_label_format (ts offsetSeconds : Int) :
    toLocalHourLabel ts offsetSeconds true
      = dayAbbrev (ts + offsetSeconds)
        ++ (" " ++ (pad2 (hour12 (hourOfDay (ts + offsetSeconds))) ++ " "
            ++ ampm (hourOfDay (ts + offsetSeconds))))
    ∧ (sliceHourly scenarioSamples 0 24).map (fun p => p.label)
      = ["Thu 12 AM", "Thu 03 AM", "Thu 06 AM", "Thu 09 AM",
         "Thu 12 PM", "Thu 03 PM", "Thu 06 PM", "Thu 09 PM"]
    ∧ (sliceHourly scenarioSamples 0 24).map (fun p => p.temp)
      = [20, 19, 18, 17, 18, 21, 24, 23] := by
  refine ⟨?_, by decide, by decide⟩
  show lstrip0 (dayAbbrev (ts + offsetSeconds) ++ " "
      ++ (pad2 (hour12 (hourOfDay (ts + offsetSeconds))) ++ " "
          ++ ampm (hourOfDay (ts + offsetSeconds)))) = _
  rw [strAppend_assoc, lstrip0_day]

/-- Counterexample to C2 as stated: at local hour 14 the label keeps the
leading zero ("Thu 02 PM", not "Thu 2 PM"), and the scenario's labels are not
the zero-stripped ones the claim lists. -/
theorem c2_label_counterexample :
    toLocalHourLabel 50400 0 true = "Thu 02 PM"
    ∧ toLocalHourLabel 50400 0 true ≠ "Thu 2 PM"
    ∧ (sliceHourly scenarioSamples 0 24).map (fun p => p.label)
      ≠ ["Thu 12 AM", "Thu 3 AM", "Thu 6 AM", "Thu 9 AM",
         "Thu 12 PM", "Thu 3 PM", "Thu 6 PM", "Thu 9 PM"] := by
  refine ⟨by decide, by decide, by decide⟩

/-- C3 (amended): formatUtcOffset splits the offset into whole hours and
remaining minutes with an explicit sign; on the spec's examples it returns
"UTC+05:30" for 19800 (5 h 30 min — the spec's "UTC+05:00" is wrong),
"UTC-05:00" for -18000 and "UTC+00:00" for 0. -/
theorem c3_offset_format :
    (∀ h m : Nat, h ≤ 14 → m < 60 →
      formatUtcOffset ((3600 * h + 60 * m : Nat) : Int)
        = "UTC" ++ "+" ++ pad2 h ++ ":" ++ pad2 m)
    ∧ formatUtcOffset 19800 = "UTC+05:30"
    ∧ formatUtcOffset (-18000) = "UTC-05:00"
    ∧ formatUtcOffset 0 = "UTC+00:00" := by
  refine ⟨?_, by decide, by decide, by decide⟩
  intro h m hh hm
  have e1 : ((3600 * h + 60 * m : Nat) : Int).natAbs / 3600 = h := by omega
  have e2a : ((3600 * h + 60 * m : Nat) : Int).emod 3600 = ((60 * m : Nat) : Int) := by
    show ((3600 * h + 60 * m : Nat) : Int) % 3600 = ((60 * m : Nat) : Int)
    push_cast
    omega
  have e2 : (((3600 * h + 60 * m : Nat) : Int).emod 3600).toNat / 60 = m := by
    rw [e2a]
    omega
  simp only [formatUtcOffset]
  rw [if_pos (by omega : (0 : Int) ≤ ((3600 * h + 60 * m : Nat) : Int))]
  rw [e1, e2]

/-- Witness for C3's universal conjunct at 5 hours 30 minutes. -/
theorem c3_offset_format_witness :
    (5 : Nat) ≤ 14 ∧ (30 : Nat) < 60
    ∧ formatUtcOffset ((3600 * 5 + 60 * 30 : Nat) : Int)
        = "UTC" ++ "+" ++ pad2 5 ++ ":" ++ pad2 30 :=
  ⟨by decide, by decide, c3_offset_format.1 5 30 (by decide) (by decide)⟩

/-- Counterexample to C3 as stated: 19800 seconds formats as "UTC+05:30",
not the claimed "UTC+05:00". -/
theorem c3_offset_counterexample :
    formatUtcOffset 19800 = "UTC+05:30" ∧ formatUtcOffset 19800 ≠ "UTC+05:00" := by
  refine ⟨by decide, by decide⟩

/-- C9: the AQI classifier maps 1..5 to Good/Fair/Moderate/Poor/Very Poor
with paired colour tokens and everything else (including a missing value) to
"Unknown" with the neutral token; the App.py variant agrees on every label. -/
theorem c9_aqi_classification :
    get_aqi_category (some 3) = ("Moderate", "#cc5500")
    ∧ get_aqi_category (some 9) = ("Unknown", "#333333")
    ∧ get_aqi_category none = ("Unknown", "#333333")
    ∧ (∀ v : Int, v < 1 ∨ 5 < v → get_aqi_category (some v) = ("Unknown", "#333333"))
    ∧ (∀ v : Option Int, (get_aqi_category_app v).1 = (get_aqi_category v).1)
    ∧ get_aqi_category (some 1) = ("Good", "#00aa00")
    ∧ get_aqi_category (some 2) = ("Fair", "#aaaa00")
    ∧ get_aqi_category (some 4) = ("Poor", "#cc0000")
    ∧ get_aqi_category (some 5) = ("Very Poor", "#77004c") := by
  refine ⟨by decide, by decide, rfl, ?_, ?_, by decide, by decide, by decide, by decide⟩
  · intro v hv
    have h1 : ¬(v = 1) := by omega
    have h2 : ¬(v = 2) := by omega
    have h3 : ¬(v = 3) := by omega
    have h4 : ¬(v = 4) := by omega
    have h5 : ¬(v = 5) := by omega
    simp [get_aqi_category, aqiMap, aqiColorMap, h1, h2, h3, h4, h5]
  · intro v
    cases v with
    | none => rfl
    | some x => rfl

/-- Witness for C9's out-of-range conjunct at index 9. -/
theorem c9_aqi_witness :
    ((9 : Int) < 1 ∨ (5 : Int) < 9)
    ∧ get_aqi_category (some 9) = ("Unknown", "#333333") :=
  ⟨Or.inr (by decide), c9_aqi_classification.2.2.2.1 9 (Or.inr (by decide))⟩

/-- C1 (amended): App.py and new.py compute identical hourly slices and daily
summaries; update.py agrees with them on the hourly temperatures, title-cased
descriptions and icons of the default 24-hour window and on the daily labels,
min/max temperatures and their order, but its hourly labels prepend the
weekday and its daily representative icon follows the closest-to-noon rule
instead of freezing the first sample's icon. -/
theorem c1_variants_agreement (samples : List ForecastSample) (offsetSeconds : Int) :
    sliceHourlyApp samples offsetSeconds = sliceHourlyNew samples offsetSeconds
    ∧ summarizeDailyApp samples = summarizeDailyNew samples
    ∧ (sliceHourly samples offsetSeconds 24).map (fun p => (p.temp, p.condition, p.icon))
      = (sliceHourlyApp samples offsetSeconds).map (fun p => (p.temp, p.condition, p.icon))
    ∧ (summarizeDaily samples).map (fun e => (e.day, e.tmin, e.tmax))
      = (summarizeDailyApp samples).map (fun e => (e.day, e.tmin, e.tmax)) := by
  refine ⟨rfl, rfl, ?_, ?_⟩
  · rw [sliceHourly, sliceHourlyApp]
    rw [show (24 : Nat) / 3 = 8 from by decide]
    rw [List.map_map, List.map_map]
    apply List.map_congr_left
    intro s hs
    rfl
  · rw [summarize_proj_update, summarize_proj_app]

/-- Counterexample to C1 as stated: update.py's hourly label carries the
weekday while App.py's does not, and on two same-day samples at hours 9 and
12 the two variants emit different daily icons. -/
theorem c1_variants_divergence :
    sliceHourly [⟨0, 20, "01d", "clear sky"⟩] 0 24
        ≠ sliceHourlyApp [⟨0, 20, "01d", "clear sky"⟩] 0
    ∧ summarizeDaily [⟨32400, 10, "02d", "x"⟩, ⟨43200, 11, "03d", "y"⟩]
        ≠ summarizeDailyApp [⟨32400, 10, "02d", "x"⟩, ⟨43200, 11, "03d", "y"⟩] := by
  refine ⟨by decide, by decide⟩
